import Mathlib

/-!
Verification of the giveaway bot's lifecycle and fair-draw engine.

The data model and operations below are translated from `src/db.js`:
the deterministic winner selector `pickWinnersDeterministic`, the
scheduler `drawAndAnnounce`, the `/cancel`, `/announce`, `/ginfo`,
`/proof` command handlers, the `join_` callback handler, and
`createGiveawayAndPost`.  Cryptographic primitives (Node's
`crypto.createHmac` / `crypto.createHash`) are external to the
repository and are modelled as abstract function parameters; random
delivery failures of the Telegram gateway and SQLite transaction
failures are modelled as boolean outcome parameters threaded through
the step functions.
-/

namespace GiveawayBot

/-- A row of the `participants` table (per giveaway): `user_id` and
display `name`.  The `joined_at` column is not needed by any property
proved here. -/
structure Participant where
  user_id : Int
  name : String
deriving DecidableEq, Repr

/-- The HMAC message `` `${gid}:${p.user_id}` `` from
`pickWinnersDeterministic` in `src/db.js`. -/
def rankMsg (gid : Int) (uid : Int) : String :=
  toString gid ++ ":" ++ toString uid

/-- The rank assigned to a participant:
`rank = hmacSha256Hex(seed, `${gid}:${p.user_id}`)` in `src/db.js`.
`hmac` stands for the external `crypto` HMAC-SHA256-hex call. -/
def rankOf (hmac : String → String → String) (seed : String) (gid : Int)
    (p : Participant) : String :=
  hmac seed (rankMsg gid p.user_id)

/-- The sort key the JS comparator realises: rank (hex string) first,
then `user_id`.  The comparator in `src/db.js` is
`a.rank.localeCompare(b.rank)` and, on equal ranks, `a.user_id - b.user_id`. -/
def keyOf (hmac : String → String → String) (seed : String) (gid : Int)
    (p : Participant) : String × Int :=
  (rankOf hmac seed gid p, p.user_id)

/-- Propositional form of the JS comparator returning `<= 0`:
rank strictly smaller, or ranks equal and `user_id` not larger. -/
def keyLe (hmac : String → String → String) (seed : String) (gid : Int)
    (p q : Participant) : Prop :=
  (keyOf hmac seed gid p).1 < (keyOf hmac seed gid q).1 ∨
    ((keyOf hmac seed gid p).1 = (keyOf hmac seed gid q).1 ∧
      (keyOf hmac seed gid p).2 ≤ (keyOf hmac seed gid q).2)

instance (hmac : String → String → String) (seed : String) (gid : Int)
    (p q : Participant) : Decidable (keyLe hmac seed gid p q) := by
  unfold keyLe; infer_instance

/-- Boolean comparator handed to the sort, mirroring the comparator
function in `src/db.js` (comparator result `<= 0`). -/
def pwLe (hmac : String → String → String) (seed : String) (gid : Int)
    (p q : Participant) : Bool :=
  decide (keyLe hmac seed gid p q)

/-- Translation of `pickWinnersDeterministic(seed, gid, participants, k)`
from `src/db.js`: rank every participant by HMAC, sort ascending with
ties broken by `user_id`, and return the first `min(k, length)` entries.
JS `Array.prototype.sort` is a stable sort; `List.mergeSort` is the
matching stable sort. -/
def pickWinnersDeterministic (hmac : String → String → String)
    (seed : String) (gid : Int) (participants : List Participant)
    (k : Nat) : List Participant :=
  (participants.mergeSort (pwLe hmac seed gid)).take
    (min k participants.length)

section SelectorLemmas

variable (hmac : String → String → String) (seed : String) (gid : Int)

theorem keyLe_total (p q : Participant) :
    keyLe hmac seed gid p q ∨ keyLe hmac seed gid q p := by
  unfold keyLe
  rcases lt_trichotomy (keyOf hmac seed gid p).1 (keyOf hmac seed gid q).1 with h | h | h
  · exact Or.inl (Or.inl h)
  · rcases le_total (keyOf hmac seed gid p).2 (keyOf hmac seed gid q).2 with h2 | h2
    · exact Or.inl (Or.inr ⟨h, h2⟩)
    · exact Or.inr (Or.inr ⟨h.symm, h2⟩)
  · exact Or.inr (Or.inl h)

theorem keyLe_trans {p q r : Participant}
    (hpq : keyLe hmac seed gid p q) (hqr : keyLe hmac seed gid q r) :
    keyLe hmac seed gid p r := by
  unfold keyLe at *
  rcases hpq with h1 | ⟨e1, l1⟩
  · rcases hqr with h2 | ⟨e2, _⟩
    · exact Or.inl (h1.trans h2)
    · exact Or.inl (e2 ▸ h1)
  · rcases hqr with h2 | ⟨e2, l2⟩
    · exact Or.inl (e1 ▸ h2)
    · exact Or.inr ⟨e1.trans e2, l1.trans l2⟩

theorem keyLe_antisymm_key {p q : Participant}
    (hpq : keyLe hmac seed gid p q) (hqp : keyLe hmac seed gid q p) :
    p.user_id = q.user_id := by
  unfold keyLe at *
  rcases hpq with h1 | ⟨e1, l1⟩
  · rcases hqp with h2 | ⟨e2, _⟩
    · exact absurd (h1.trans h2) (lt_irrefl _)
    · exact absurd (e2 ▸ h1) (lt_irrefl _)
  · rcases hqp with h2 | ⟨e2, l2⟩
    · exact absurd (e1 ▸ h2) (lt_irrefl _)
    · exact le_antisymm l1 l2

theorem pwLe_total (p q : Participant) :
    pwLe hmac seed gid p q || pwLe hmac seed gid q p := by
  unfold pwLe
  rcases keyLe_total hmac seed gid p q with h | h <;> simp [h]

theorem pwLe_trans (p q r : Participant)
    (hpq : pwLe hmac seed gid p q) (hqr : pwLe hmac seed gid q r) :
    pwLe hmac seed gid p r := by
  unfold pwLe at *
  exact decide_eq_true (keyLe_trans hmac seed gid
    (of_decide_eq_true hpq) (of_decide_eq_true hqr))

theorem mergeSort_pairwise_keyLe (l : List Participant) :
    (l.mergeSort (pwLe hmac seed gid)).Pairwise (keyLe hmac seed gid) := by
  have h := List.sorted_mergeSort (pwLe_trans hmac seed gid)
    (pwLe_total hmac seed gid) l
  exact h.imp (fun hab => of_decide_eq_true hab)

theorem eq_of_perm_of_pairwise_of_nodupKeys :
    ∀ {s₁ s₂ : List Participant}, s₁.Perm s₂ →
    (s₁.map Participant.user_id).Nodup →
    s₁.Pairwise (keyLe hmac seed gid) →
    s₂.Pairwise (keyLe hmac seed gid) → s₁ = s₂ := by
  intro s₁
  induction s₁ with
  | nil =>
    intro s₂ hperm _ _ _
    exact hperm.symm.eq_nil.symm
  | cons a t ih =>
    intro s₂ hperm hnd hs₁ hs₂
    cases s₂ with
    | nil => exact absurd hperm.eq_nil (by simp)
    | cons b t₂ =>
      rw [List.map_cons, List.nodup_cons] at hnd
      have hab : a = b := by
        have hbmem : b ∈ a :: t := hperm.symm.subset (List.mem_cons_self b t₂)
        rcases List.mem_cons.mp hbmem with h | hbt
        · exact h.symm
        · have hamem : a ∈ b :: t₂ := hperm.subset (List.mem_cons_self a t)
          rcases List.mem_cons.mp hamem with h | hat2
          · exact h
          · have h1 : keyLe hmac seed gid a b := (List.pairwise_cons.mp hs₁).1 b hbt
            have h2 : keyLe hmac seed gid b a := (List.pairwise_cons.mp hs₂).1 a hat2
            have he : a.user_id = b.user_id := keyLe_antisymm_key hmac seed gid h1 h2
            have hin : a.user_id ∈ t.map Participant.user_id :=
              he ▸ List.mem_map_of_mem Participant.user_id hbt
            exact absurd hin hnd.1
      subst hab
      have htail := ih hperm.cons_inv hnd.2
        (List.pairwise_cons.mp hs₁).2 (List.pairwise_cons.mp hs₂).2
      rw [htail]

theorem pickWinners_length (l : List Participant) (k : Nat) :
    (pickWinnersDeterministic hmac seed gid l k).length = min k l.length := by
  simp [pickWinnersDeterministic]

theorem pickWinners_pairwise (l : List Participant) (k : Nat) :
    (pickWinnersDeterministic hmac seed gid l k).Pairwise (keyLe hmac seed gid) :=
  (mergeSort_pairwise_keyLe hmac seed gid l).sublist (List.take_sublist _ _)

theorem pickWinners_subperm (l : List Participant) (k : Nat) :
    (pickWinnersDeterministic hmac seed gid l k).Subperm l :=
  ((List.take_sublist _ _).subperm).trans (List.mergeSort_perm l _).subperm

theorem pickWinners_minimal (l : List Participant) (k : Nat) (p : Participant)
    (hp : p ∈ l) (hnp : p ∉ pickWinnersDeterministic hmac seed gid l k) :
    ∀ q ∈ pickWinnersDeterministic hmac seed gid l k, keyLe hmac seed gid q p := by
  intro q hq
  have hpw : ((l.mergeSort (pwLe hmac seed gid)).take (min k l.length) ++
      (l.mergeSort (pwLe hmac seed gid)).drop (min k l.length)).Pairwise
      (keyLe hmac seed gid) := by
    rw [List.take_append_drop]
    exact mergeSort_pairwise_keyLe hmac seed gid l
  have hps : p ∈ (l.mergeSort (pwLe hmac seed gid)).take (min k l.length) ++
      (l.mergeSort (pwLe hmac seed gid)).drop (min k l.length) := by
    rw [List.take_append_drop, List.mem_mergeSort]
    exact hp
  have hpd : p ∈ (l.mergeSort (pwLe hmac seed gid)).drop (min k l.length) := by
    rcases List.mem_append.mp hps with h | h
    · exact absurd h hnp
    · exact h
  exact (List.pairwise_append.mp hpw).2.2 q hq p hpd

theorem pickWinners_perm_invariant (l₁ l₂ : List Participant) (k : Nat)
    (hperm : l₁.Perm l₂) (hnd : (l₁.map Participant.user_id).Nodup) :
    pickWinnersDeterministic hmac seed gid l₁ k =
      pickWinnersDeterministic hmac seed gid l₂ k := by
  have hs : l₁.mergeSort (pwLe hmac seed gid) = l₂.mergeSort (pwLe hmac seed gid) := by
    apply eq_of_perm_of_pairwise_of_nodupKeys hmac seed gid
    · exact (List.mergeSort_perm l₁ _).trans
        (hperm.trans (List.mergeSort_perm l₂ _).symm)
    · have hmp : (l₁.mergeSort (pwLe hmac seed gid)).map Participant.user_id |>.Perm
          (l₁.map Participant.user_id) := (List.mergeSort_perm l₁ _).map _
      exact hmp.nodup_iff.mpr hnd
    · exact mergeSort_pairwise_keyLe hmac seed gid l₁
    · exact mergeSort_pairwise_keyLe hmac seed gid l₂
  unfold pickWinnersDeterministic
  rw [hs, hperm.length_eq]

end SelectorLemmas

/-- C1: for every seed, giveaway id, participant list and winner count
`k`, `pickWinnersDeterministic` returns exactly the first
`min(k, |participants|)` participants ordered by
`rank = HMAC-SHA256(seed, gid ":" uid)` ascending with ties broken by
participant id ascending (stated as: the output has length
`min k |l|`, is sorted under the rank-then-id order `keyLe`, is drawn
from the input, and every non-selected participant ranks at or above
every selected one); the output is a pure function of the inputs and
is invariant under permutation of the participant list (for
duplicate-free participant ids, as guaranteed by the `participants`
table primary key), and the empty list yields the empty list. -/
theorem C1_pickWinners_correct (hmac : String → String → String)
    (seed : String) (gid : Int) (k : Nat) (l₁ l₂ : List Participant)
    (hperm : l₁.Perm l₂) (hnd : (l₁.map Participant.user_id).Nodup) :
    pickWinnersDeterministic hmac seed gid [] k = [] ∧
    pickWinnersDeterministic hmac seed gid l₁ k =
      pickWinnersDeterministic hmac seed gid l₂ k ∧
    (pickWinnersDeterministic hmac seed gid l₁ k).length = min k l₁.length ∧
    (pickWinnersDeterministic hmac seed gid l₁ k).Pairwise (keyLe hmac seed gid) ∧
    (pickWinnersDeterministic hmac seed gid l₁ k).Subperm l₁ ∧
    ∀ p ∈ l₁, p ∉ pickWinnersDeterministic hmac seed gid l₁ k →
      ∀ q ∈ pickWinnersDeterministic hmac seed gid l₁ k, keyLe hmac seed gid q p :=
  ⟨by simp [pickWinnersDeterministic],
   pickWinners_perm_invariant hmac seed gid l₁ l₂ k hperm hnd,
   pickWinners_length hmac seed gid l₁ k,
   pickWinners_pairwise hmac seed gid l₁ k,
   pickWinners_subperm hmac seed gid l₁ k,
   fun p hp hnp => pickWinners_minimal hmac seed gid l₁ k p hp hnp⟩

/-- Concrete instantiation of `C1_pickWinners_correct`: two enumeration
orders of the same two-participant set give the same selection. -/
theorem C1_pickWinners_correct_witness :
    pickWinnersDeterministic (fun s m => s ++ m) "seed" 7
      [⟨2, "b"⟩, ⟨1, "a"⟩] 1 =
    pickWinnersDeterministic (fun s m => s ++ m) "seed" 7
      [⟨1, "a"⟩, ⟨2, "b"⟩] 1 :=
  (C1_pickWinners_correct (fun s m => s ++ m) "seed" 7 1
    [⟨2, "b"⟩, ⟨1, "a"⟩] [⟨1, "a"⟩, ⟨2, "b"⟩]
    (by decide) (by decide)).2.1

/-! ## Giveaway state and lifecycle operations

A `GState` collects the columns of one `giveaways` row together with
its `participants` and `winners` rows — all the durable state of one
giveaway.  Telegram delivery outcomes and SQLite transaction outcomes
are boolean parameters of the step functions. -/

/-- Channel of an outbound message: the public group, or a direct
(private) message. -/
inductive Chan
  | group
  | dm
deriving DecidableEq, Repr

/-- Kind of an outbound message the modelled code sends. -/
inductive MsgKind
  | giveawayPost
  | winnersPost (ws : List Participant)
  | emptyNotice
  | canceledPost
  | canceledNotice
  | proof
deriving DecidableEq, Repr

/-- An outbound message: channel plus payload kind. -/
structure Msg where
  chan : Chan
  kind : MsgKind
deriving DecidableEq, Repr

/-- Durable state of one giveaway: the `giveaways` row
(`id, winners, end_time, ended, ended_at, seed, seed_hash, canceled,
cancel_reason, announced, announced_at`) plus its `participants` and
`winners` table rows. -/
structure GState where
  id : Int
  winnersReq : Nat
  endTime : Nat
  ended : Bool
  endedAt : Option Nat
  seed : String
  seedHash : String
  canceled : Bool
  cancelReason : Option String
  announced : Bool
  announcedAt : Option Nat
  participants : List Participant
  winners : List Participant
deriving DecidableEq, Repr

/-- The draw transaction body from `drawAndAnnounce` in `src/db.js`:
insert the picked winners rows and set `ended=1, ended_at=now` (run as
one `db.transaction`).  Only entered when `g.ended === 0`. -/
def drawnState (hmac : String → String → String) (now : Nat) (st : GState) :
    GState :=
  if st.ended = false then
    { st with
      winners := pickWinnersDeterministic hmac st.seed st.id
        st.participants st.winnersReq,
      ended := true, endedAt := some now }
  else st

/-- One scheduler pass of `drawAndAnnounce` (`src/db.js`) for a single
giveaway.  The due filter is the SQL
`canceled = 0 AND end_time <= now AND announced = 0`.  `pubOk` is the
outcome of the awaited public `sendMessage` (a `false` models the
thrown, caught exception); `txOk` is the outcome of the draw
transaction (a `false` models its rollback).  The admin proof DMs are
fire-and-forget.  The result is the new durable state plus the
messages successfully delivered. -/
def tickG (hmac : String → String → String) (pubOk txOk : Bool) (now : Nat)
    (st : GState) : GState × List Msg :=
  if st.canceled = false ∧ st.endTime ≤ now ∧ st.announced = false then
    if st.ended = false ∧ st.participants = [] then
      if pubOk then
        ({ st with ended := true, endedAt := some now,
                   announced := true, announcedAt := some now },
         [⟨.group, .emptyNotice⟩, ⟨.dm, .proof⟩])
      else ({ st with ended := true, endedAt := some now }, [])
    else if st.ended = false ∧ txOk = false then
      (st, [])
    else
      if (drawnState hmac now st).winners = [] then (drawnState hmac now st, [])
      else if pubOk then
        ({ drawnState hmac now st with
           announced := true, announcedAt := some now },
         [⟨.group, .winnersPost (drawnState hmac now st).winners⟩, ⟨.dm, .proof⟩])
      else (drawnState hmac now st, [])
  else (st, [])

/-- Reply of the `/cancel` command handler. -/
inductive CancelReply
  | alreadyCanceled
  | alreadyEnded
  | ok
deriving DecidableEq, Repr

/-- The `/cancel <id>` handler (`src/db.js`): rejected if already
canceled or already ended; otherwise sets
`canceled=1, ended=1, ended_at=now, cancel_reason` and then
best-effort edits the post and sends a group notice. -/
def cancelStep (now : Nat) (reason : String) (st : GState) :
    GState × List Msg × CancelReply :=
  if st.canceled then (st, [], .alreadyCanceled)
  else if st.ended then (st, [], .alreadyEnded)
  else ({ st with canceled := true, ended := true, endedAt := some now,
                  cancelReason := some reason },
        [⟨.group, .canceledPost⟩, ⟨.group, .canceledNotice⟩], .ok)

/-- Reply of the manual `/announce` command handler. -/
inductive AnnounceReply
  | canceledErr
  | notEnded
  | noWinners
  | sent
  | sendFail
deriving DecidableEq, Repr

/-- The manual `/announce <id>` handler (`src/db.js`, DM-only): rejects
canceled or not-yet-ended giveaways and an empty winners table; then
sends the winners post to the group and, on success, runs
`UPDATE giveaways SET announced=1, announced_at=now` (with no
`announced=0` guard) and DMs the proof to admins. -/
def manualAnnounce (sendOk : Bool) (now : Nat) (st : GState) :
    GState × List Msg × AnnounceReply :=
  if st.canceled then (st, [], .canceledErr)
  else if st.ended = false then (st, [], .notEnded)
  else if st.winners = [] then (st, [], .noWinners)
  else if sendOk then
    ({ st with announced := true, announcedAt := some now },
     [⟨.group, .winnersPost st.winners⟩, ⟨.dm, .proof⟩], .sent)
  else (st, [], .sendFail)

/-- Reply sent to the join button callback. -/
inductive JoinReply
  | canceledAlert
  | closedAlert
  | notMember
  | alreadyJoined
  | joined
deriving DecidableEq, Repr

/-- The `join_<gid>` button handler (`src/db.js`): rejects canceled
giveaways, closed giveaways (`g.ended === 1 || now >= g.end_time`),
non-members, and a duplicate `(giveaway_id, user_id)` (the
`participants` PRIMARY KEY makes the INSERT throw, answered with the
already-joined alert); otherwise inserts the participant row. -/
def joinStep (isMember : Bool) (now : Nat) (uid : Int) (name : String)
    (st : GState) : GState × JoinReply :=
  if st.canceled then (st, .canceledAlert)
  else if st.ended = true ∨ st.endTime ≤ now then (st, .closedAlert)
  else if isMember = false then (st, .notMember)
  else if uid ∈ st.participants.map Participant.user_id then
    (st, .alreadyJoined)
  else ({ st with participants := st.participants ++ [⟨uid, name⟩] }, .joined)

/-- Reply of `createGiveawayAndPost`. -/
inductive CreateReply
  | success
  | failure
deriving DecidableEq, Repr

/-- The freshly inserted `giveaways` row from `createGiveawayAndPost`
(`src/db.js`): flags default to `0`, `announced` is written `0`
explicitly, `seed` is the fresh random seed and
`seed_hash = sha256Hex(seed)`; no participants or winners rows exist
yet.  `sha` stands for the external `crypto` SHA-256-hex call. -/
def initState (sha : String → String) (gid : Int) (winners : Nat)
    (endUnix : Nat) (seed : String) : GState :=
  { id := gid, winnersReq := winners, endTime := endUnix,
    ended := false, endedAt := none, seed := seed, seedHash := sha seed,
    canceled := false, cancelReason := none, announced := false,
    announcedAt := none, participants := [], winners := [] }

/-- Translation of `createGiveawayAndPost` (`src/db.js`): the public
group post is sent first; only after it succeeds is the giveaway row
inserted.  A failed send is caught and answered with the failure
reply, leaving the store unchanged.  `editOk` is the outcome of the
subsequent awaited calls (reply-markup edit and success reply) inside
the same `try`; their failure also lands in the `catch`, after the
row was inserted. -/
def createGiveawayAndPost (sha : String → String) (sendOk editOk : Bool)
    (gid : Int) (winners : Nat) (endUnix : Nat) (seed : String) :
    Option GState × List Msg × CreateReply :=
  if sendOk then
    (some (initState sha gid winners endUnix seed),
     [⟨.group, .giveawayPost⟩],
     if editOk then .success else .failure)
  else (none, [], .failure)

/-- The seed line of `buildProofText` (`src/db.js`): the raw seed is
shown exactly when `g.ended && !g.canceled`, otherwise the placeholder
string.  (`seed`/`seed_hash` are non-null from creation on, so the
`|| "N/A"` fallbacks are dead.) -/
def proofSeedShown (st : GState) : String :=
  if st.ended = true ∧ st.canceled = false then st.seed else "Chưa công bố"

/-- The commit line of `buildProofText`: the stored commitment hash,
shown unconditionally. -/
def proofCommitShown (st : GState) : String := st.seedHash

/-- Whether the `/ginfo` handler appends the proof block: only when
`ctx.chat.type === "private"`. -/
def ginfoIncludesProof (c : Chan) : Bool := decide (c = Chan.dm)

/-- Whether the `/proof` handler replies with the proof text: it
refuses outside a private chat. -/
def proofCmdReplies (c : Chan) : Bool := decide (c = Chan.dm)

/-- One durable-state transition of the system: a scheduler tick, a
`/cancel`, a manual `/announce`, or a join. -/
inductive Step (hmac : String → String → String) : GState → GState → Prop
  | tick (pubOk txOk : Bool) (now : Nat) (st : GState) :
      Step hmac st (tickG hmac pubOk txOk now st).1
  | cancel (now : Nat) (reason : String) (st : GState) :
      Step hmac st (cancelStep now reason st).1
  | manual (sendOk : Bool) (now : Nat) (st : GState) :
      Step hmac st (manualAnnounce sendOk now st).1
  | join (isMember : Bool) (now : Nat) (uid : Int) (name : String) (st : GState) :
      Step hmac st (joinStep isMember now uid name st).1

/-- Reachability along any number of transitions. -/
def Reachable (hmac : String → String → String) : GState → GState → Prop :=
  Relation.ReflTransGen (Step hmac)

/-! ## Lifecycle lemmas -/

theorem tickG_canceled (hmac : String → String → String) (pubOk txOk : Bool)
    (now : Nat) (st : GState) (h : st.canceled = true) :
    tickG hmac pubOk txOk now st = (st, []) := by
  simp [tickG, h]

theorem tickG_announced (hmac : String → String → String) (pubOk txOk : Bool)
    (now : Nat) (st : GState) (h : st.announced = true) :
    tickG hmac pubOk txOk now st = (st, []) := by
  simp [tickG, h]

theorem tickG_not_due (hmac : String → String → String) (pubOk txOk : Bool)
    (now : Nat) (st : GState) (h : ¬ st.endTime ≤ now) :
    tickG hmac pubOk txOk now st = (st, []) := by
  simp [tickG, h]

theorem cancelStep_canceled (now : Nat) (reason : String) (st : GState)
    (h : st.canceled = true) : cancelStep now reason st = (st, [], .alreadyCanceled) := by
  simp [cancelStep, h]

theorem cancelStep_ended (now : Nat) (reason : String) (st : GState)
    (h : st.ended = true) : (cancelStep now reason st).1 = st := by
  unfold cancelStep
  split_ifs <;> simp_all

theorem manualAnnounce_canceled (sendOk : Bool) (now : Nat) (st : GState)
    (h : st.canceled = true) :
    manualAnnounce sendOk now st = (st, [], .canceledErr) := by
  simp [manualAnnounce, h]

theorem joinStep_canceled (isMember : Bool) (now : Nat) (uid : Int)
    (name : String) (st : GState) (h : st.canceled = true) :
    joinStep isMember now uid name st = (st, .canceledAlert) := by
  simp [joinStep, h]

theorem step_frozen_of_canceled (hmac : String → String → String)
    {st st' : GState} (h : st.canceled = true) (hs : Step hmac st st') :
    st' = st := by
  cases hs with
  | tick pubOk txOk now st => rw [tickG_canceled hmac pubOk txOk now st h]
  | cancel now reason st => rw [cancelStep_canceled now reason st h]
  | manual sendOk now st => rw [manualAnnounce_canceled sendOk now st h]
  | join isMember now uid name st => rw [joinStep_canceled isMember now uid name st h]

theorem drawnState_fields (hmac : String → String → String) (now : Nat)
    (st : GState) :
    (drawnState hmac now st).seed = st.seed ∧
    (drawnState hmac now st).seedHash = st.seedHash ∧
    (drawnState hmac now st).id = st.id ∧
    (drawnState hmac now st).endTime = st.endTime ∧
    (drawnState hmac now st).winnersReq = st.winnersReq ∧
    (drawnState hmac now st).canceled = st.canceled ∧
    (drawnState hmac now st).announced = st.announced ∧
    (drawnState hmac now st).announcedAt = st.announcedAt ∧
    (drawnState hmac now st).participants = st.participants := by
  unfold drawnState
  split_ifs <;> simp

theorem step_immutable_fields (hmac : String → String → String)
    {st st' : GState} (hs : Step hmac st st') :
    st'.seed = st.seed ∧ st'.seedHash = st.seedHash ∧ st'.id = st.id ∧
    st'.endTime = st.endTime ∧ st'.winnersReq = st.winnersReq := by
  cases hs with
  | tick pubOk txOk now st =>
    unfold tickG
    split_ifs <;> simp [drawnState_fields]
  | cancel now reason st =>
    unfold cancelStep
    split_ifs <;> simp
  | manual sendOk now st =>
    unfold manualAnnounce
    split_ifs <;> simp
  | join isMember now uid name st =>
    unfold joinStep
    split_ifs <;> simp

/-- The two flag invariants the lifecycle maintains: `announced`
implies `ended`, and a canceled giveaway is unannounced. -/
def Inv (st : GState) : Prop :=
  (st.announced = true → st.ended = true) ∧
  (st.canceled = true → st.announced = false)

theorem initState_inv (sha : String → String) (gid : Int) (w endUnix : Nat)
    (seed : String) : Inv (initState sha gid w endUnix seed) := by
  simp [Inv, initState]

theorem step_inv (hmac : String → String → String) {st st' : GState}
    (hs : Step hmac st st') (hi : Inv st) : Inv st' := by
  obtain ⟨h1, h2⟩ := hi
  cases hs with
  | tick pubOk txOk now st =>
    unfold Inv tickG drawnState
    split_ifs <;> simp_all
  | cancel now reason st =>
    unfold Inv cancelStep
    split_ifs <;> simp_all
  | manual sendOk now st =>
    unfold Inv manualAnnounce
    split_ifs <;> simp_all
  | join isMember now uid name st =>
    unfold Inv joinStep
    split_ifs <;> simp_all

theorem reachable_inv (hmac : String → String → String) {st₀ st : GState}
    (hr : Reachable hmac st₀ st) (hi : Inv st₀) : Inv st := by
  induction hr with
  | refl => exact hi
  | tail _ hstep ih => exact step_inv hmac hstep ih

theorem reachable_immutable_fields (hmac : String → String → String)
    {st₀ st : GState} (hr : Reachable hmac st₀ st) :
    st.seed = st₀.seed ∧ st.seedHash = st₀.seedHash ∧ st.id = st₀.id ∧
    st.endTime = st₀.endTime ∧ st.winnersReq = st₀.winnersReq := by
  induction hr with
  | refl => exact ⟨rfl, rfl, rfl, rfl, rfl⟩
  | tail _ hstep ih =>
    obtain ⟨a, b, c, d, e⟩ := ih
    obtain ⟨a', b', c', d', e'⟩ := step_immutable_fields hmac hstep
    exact ⟨a' ▸ a, b' ▸ b, c' ▸ c, d' ▸ d, e' ▸ e⟩

theorem tickG_recover (hmac : String → String → String) (pubOk txOk : Bool)
    (now : Nat) (st : GState) (hc : st.canceled = false)
    (ht : st.endTime ≤ now) (ha : st.announced = false)
    (he : st.ended = true) (hw : st.winners ≠ []) :
    tickG hmac pubOk txOk now st =
      if pubOk then
        ({ st with announced := true, announcedAt := some now },
         [⟨.group, .winnersPost st.winners⟩, ⟨.dm, .proof⟩])
      else (st, []) := by
  unfold tickG drawnState
  simp [hc, ht, ha, he, hw]

theorem tickG_empty_draw (hmac : String → String → String) (pubOk txOk : Bool)
    (now : Nat) (st : GState) (hc : st.canceled = false)
    (ht : st.endTime ≤ now) (ha : st.announced = false)
    (he : st.ended = false) (hp : st.participants = []) :
    tickG hmac pubOk txOk now st =
      if pubOk then
        ({ st with ended := true, endedAt := some now,
                   announced := true, announcedAt := some now },
         [⟨.group, .emptyNotice⟩, ⟨.dm, .proof⟩])
      else ({ st with ended := true, endedAt := some now }, []) := by
  unfold tickG
  simp [hc, ht, ha, he, hp]

theorem step_no_winners (hmac : String → String → String) {st st' : GState}
    (hs : Step hmac st st') (he : st.ended = true) (hw : st.winners = []) :
    st'.ended = true ∧ st'.winners = [] := by
  cases hs with
  | tick pubOk txOk now st =>
    unfold tickG drawnState
    split_ifs <;> simp_all
  | cancel now reason st =>
    unfold cancelStep
    split_ifs <;> simp_all
  | manual sendOk now st =>
    unfold manualAnnounce
    split_ifs <;> simp_all
  | join isMember now uid name st =>
    unfold joinStep
    split_ifs <;> simp_all

theorem reachable_no_winners (hmac : String → String → String)
    {st₀ st : GState} (hr : Reachable hmac st₀ st)
    (he : st₀.ended = true) (hw : st₀.winners = []) :
    st.ended = true ∧ st.winners = [] := by
  induction hr with
  | refl => exact ⟨he, hw⟩
  | tail _ hstep ih => exact step_no_winners hmac hstep ih.1 ih.2

theorem step_endedAt_frozen (hmac : String → String → String) {st st' : GState}
    (hs : Step hmac st st') (he : st.ended = true) :
    st'.endedAt = st.endedAt ∧ st'.ended = true := by
  cases hs with
  | tick pubOk txOk now st =>
    unfold tickG drawnState
    split_ifs <;> simp_all
  | cancel now reason st =>
    unfold cancelStep
    split_ifs <;> simp_all
  | manual sendOk now st =>
    unfold manualAnnounce
    split_ifs <;> simp_all
  | join isMember now uid name st =>
    unfold joinStep
    split_ifs <;> simp_all

/-! ## Claims -/

/-- C2 counterexample: a due giveaway with zero participants whose
empty-notice publish fails is never retried, contradicting the claim
that "any publish failure leaves announced=0, and the next tick
retries only the publish step": after the failed first tick
(`pubOk = false`), the next tick with a healthy gateway
(`pubOk = true`) publishes nothing and leaves `announced = 0` — the
scheduler hits the winners-missing log path and skips the giveaway
forever. -/
theorem C2_publish_retry_counterexample :
    (tickG (fun s m => s ++ m) true true 11
        ((tickG (fun s m => s ++ m) false true 10
          { id := 1, winnersReq := 2, endTime := 10, ended := false,
            endedAt := none, seed := "s", seedHash := "h", canceled := false,
            cancelReason := none, announced := false, announcedAt := none,
            participants := [], winners := [] }).1)).2 = [] ∧
    (tickG (fun s m => s ++ m) true true 11
        ((tickG (fun s m => s ++ m) false true 10
          { id := 1, winnersReq := 2, endTime := 10, ended := false,
            endedAt := none, seed := "s", seedHash := "h", canceled := false,
            cancelReason := none, announced := false, announcedAt := none,
            participants := [], winners := [] }).1)).1.announced = false := by
  decide

/-- C2 (amended): for a due giveaway the scheduler sets `announced=1`
and `announced_at` only when the publish call succeeded, and any
publish failure leaves `announced=0`; for a giveaway with a nonempty
persisted winners batch, a later tick — equivalently, the first tick
after a process restart, since the tick is a function of the durable
state alone — republishes exactly the stored batch and changes nothing
but the `announced` flags: no re-draw, no new winners rows, no change
to `ended`/`ended_at`.  (A failed zero-participant notice, by
contrast, is never retried — see the counterexample.) -/
theorem C2_announce_after_publish (hmac : String → String → String)
    (pubOk txOk : Bool) (now : Nat) (st : GState)
    (hc : st.canceled = false) (ht : st.endTime ≤ now)
    (ha : st.announced = false) :
    ((tickG hmac pubOk txOk now st).1.announced = true → pubOk = true) ∧
    (pubOk = false → (tickG hmac pubOk txOk now st).1.announced = false) ∧
    (st.ended = true → st.winners ≠ [] →
      tickG hmac pubOk txOk now st =
        if pubOk then
          ({ st with announced := true, announcedAt := some now },
           [⟨.group, .winnersPost st.winners⟩, ⟨.dm, .proof⟩])
        else (st, [])) := by
  refine ⟨?_, ?_, fun he hw => tickG_recover hmac pubOk txOk now st hc ht ha he hw⟩
  · unfold tickG drawnState
    split_ifs <;> simp_all
  · unfold tickG drawnState
    split_ifs <;> simp_all

/-- Concrete instantiation of `C2_announce_after_publish`: a crashed
giveaway (`ended=1`, winners persisted, `announced=0`) stays
unannounced when the publish fails. -/
theorem C2_announce_after_publish_witness :
    (tickG (fun s m => s ++ m) false true 10
      { id := 1, winnersReq := 1, endTime := 10, ended := true,
        endedAt := some 10, seed := "s", seedHash := "h", canceled := false,
        cancelReason := none, announced := false, announcedAt := none,
        participants := [⟨1, "a"⟩], winners := [⟨1, "a"⟩] }).1.announced = false :=
  (C2_announce_after_publish (fun s m => s ++ m) false true 10
    { id := 1, winnersReq := 1, endTime := 10, ended := true,
      endedAt := some 10, seed := "s", seedHash := "h", canceled := false,
      cancelReason := none, announced := false, announcedAt := none,
      participants := [⟨1, "a"⟩], winners := [⟨1, "a"⟩] }
    rfl (by decide) rfl).2.1 rfl

/-- C3: when the draw step runs on a due giveaway with at least one
participant, the winners batch insert and the `ended=1, ended_at=now`
write form one transaction: if it commits, the winners rows are
exactly the deterministic pick and `ended=1`; if it fails, the state
is unchanged — no winners rows, `ended` still `0`. -/
theorem C3_draw_atomic (hmac : String → String → String)
    (pubOk txOk : Bool) (now : Nat) (st : GState)
    (hc : st.canceled = false) (ht : st.endTime ≤ now)
    (ha : st.announced = false) (he : st.ended = false)
    (hp : st.participants ≠ []) (hw : st.winners = []) :
    (txOk = false → (tickG hmac pubOk txOk now st).1 = st ∧
      (tickG hmac pubOk txOk now st).1.winners = [] ∧
      (tickG hmac pubOk txOk now st).1.ended = false) ∧
    (txOk = true →
      (tickG hmac pubOk txOk now st).1.winners =
        pickWinnersDeterministic hmac st.seed st.id st.participants
          st.winnersReq ∧
      (tickG hmac pubOk txOk now st).1.ended = true ∧
      (tickG hmac pubOk txOk now st).1.endedAt = some now) := by
  unfold tickG drawnState
  split_ifs <;> simp_all

/-- Concrete instantiation of `C3_draw_atomic`: a failed transaction
leaves the due giveaway untouched. -/
theorem C3_draw_atomic_witness :
    (tickG (fun s m => s ++ m) true false 10
      { id := 1, winnersReq := 1, endTime := 10, ended := false,
        endedAt := none, seed := "s", seedHash := "h", canceled := false,
        cancelReason := none, announced := false, announcedAt := none,
        participants := [⟨1, "a"⟩], winners := [] }).1 =
      { id := 1, winnersReq := 1, endTime := 10, ended := false,
        endedAt := none, seed := "s", seedHash := "h", canceled := false,
        cancelReason := none, announced := false, announcedAt := none,
        participants := [⟨1, "a"⟩], winners := [] } :=
  ((C3_draw_atomic (fun s m => s ++ m) true false 10
    { id := 1, winnersReq := 1, endTime := 10, ended := false,
      endedAt := none, seed := "s", seedHash := "h", canceled := false,
      cancelReason := none, announced := false, announcedAt := none,
      participants := [⟨1, "a"⟩], winners := [] }
    rfl (by decide) rfl rfl (by decide) rfl).1 rfl).1

/-- C4 counterexample: the manual `/announce` command carries no
`announced=0` guard, so re-running it on an already-announced giveaway
re-publishes and overwrites `announced_at` (here from `100` to `200`),
contradicting the claim that every lifecycle write is guarded and that
the timestamps never change. -/
theorem C4_announcedAt_counterexample :
    (manualAnnounce true 200
      { id := 1, winnersReq := 1, endTime := 10, ended := true,
        endedAt := some 10, seed := "s", seedHash := "h", canceled := false,
        cancelReason := none, announced := true, announcedAt := some 100,
        participants := [⟨1, "a"⟩], winners := [⟨1, "a"⟩] }).1.announcedAt =
      some 200 := by
  decide

/-- C4 (amended): `ended_at`, once `ended=1`, is never changed by any
operation; the scheduler's guards — the due query's `announced = 0`
filter and the `ended === 0` check, which are application-level
conditions rather than `WHERE ended=0`/`WHERE announced=0` clauses on
the UPDATEs — make a tick on an announced giveaway a no-op, so the
scheduler sets `announced_at` only once; but the manual `/announce`
command does not check `announced` and overwrites `announced_at` on an
already-announced giveaway. -/
theorem C4_timestamps_once (hmac : String → String → String)
    (pubOk txOk : Bool) (now : Nat) {st st' : GState}
    (hs : Step hmac st st') :
    (st.ended = true → st'.endedAt = st.endedAt ∧ st'.ended = true) ∧
    (st.announced = true → tickG hmac pubOk txOk now st = (st, [])) ∧
    (st.canceled = false → st.ended = true → st.winners ≠ [] →
      (manualAnnounce true now st).1.announcedAt = some now ∧
      (manualAnnounce true now st).1.announced = true) := by
  refine ⟨fun he => step_endedAt_frozen hmac hs he,
    fun ha => tickG_announced hmac pubOk txOk now st ha, ?_⟩
  intro hc he hw
  unfold manualAnnounce
  split_ifs <;> simp_all

/-- Concrete instantiation of `C4_timestamps_once`: a tick on an
announced giveaway changes nothing. -/
theorem C4_timestamps_once_witness :
    tickG (fun s m => s ++ m) true true 300
      { id := 1, winnersReq := 1, endTime := 10, ended := true,
        endedAt := some 10, seed := "s", seedHash := "h", canceled := false,
        cancelReason := none, announced := true, announcedAt := some 100,
        participants := [⟨1, "a"⟩], winners := [⟨1, "a"⟩] } =
      ({ id := 1, winnersReq := 1, endTime := 10, ended := true,
         endedAt := some 10, seed := "s", seedHash := "h", canceled := false,
         cancelReason := none, announced := true, announcedAt := some 100,
         participants := [⟨1, "a"⟩], winners := [⟨1, "a"⟩] }, []) :=
  (C4_timestamps_once (fun s m => s ++ m) true true 300
    (Step.tick true true 300
      { id := 1, winnersReq := 1, endTime := 10, ended := true,
        endedAt := some 10, seed := "s", seedHash := "h", canceled := false,
        cancelReason := none, announced := true, announcedAt := some 100,
        participants := [⟨1, "a"⟩], winners := [⟨1, "a"⟩] })).2.1 rfl

/-- C5: a canceled giveaway is frozen — every operation (scheduler
tick, `/cancel`, manual `/announce`, join) leaves it unchanged, so it
never reaches `announced=1` and is never drawn; cancellation itself is
rejected once `ended=1`; and on every state reachable from creation a
canceled giveaway has `announced = 0`. -/
theorem C5_cancellation_finality (hmac : String → String → String) :
    (∀ st st' : GState, st.canceled = true → Step hmac st st' → st' = st) ∧
    (∀ (now : Nat) (reason : String) (st : GState), st.ended = true →
      (cancelStep now reason st).1 = st) ∧
    (∀ (sha : String → String) (gid : Int) (w endUnix : Nat) (seed : String)
      (st : GState), Reachable hmac (initState sha gid w endUnix seed) st →
      st.canceled = true → st.announced = false) :=
  ⟨fun _ _ h hs => step_frozen_of_canceled hmac h hs,
   fun now reason st h => cancelStep_ended now reason st h,
   fun sha gid w endUnix seed _ hr hc =>
     (reachable_inv hmac hr (initState_inv sha gid w endUnix seed)).2 hc⟩

/-- Concrete instantiation of `C5_cancellation_finality`: a tick on a
canceled giveaway changes nothing. -/
theorem C5_cancellation_finality_witness :
    (tickG (fun s m => s ++ m) true true 50
      { id := 3, winnersReq := 1, endTime := 10, ended := true,
        endedAt := some 5, seed := "s", seedHash := "h", canceled := true,
        cancelReason := some "r", announced := false, announcedAt := none,
        participants := [⟨1, "a"⟩], winners := [] }).1 =
      { id := 3, winnersReq := 1, endTime := 10, ended := true,
        endedAt := some 5, seed := "s", seedHash := "h", canceled := true,
        cancelReason := some "r", announced := false, announcedAt := none,
        participants := [⟨1, "a"⟩], winners := [] } :=
  (C5_cancellation_finality (fun s m => s ++ m)).1
    { id := 3, winnersReq := 1, endTime := 10, ended := true,
      endedAt := some 5, seed := "s", seedHash := "h", canceled := true,
      cancelReason := some "r", announced := false, announcedAt := none,
      participants := [⟨1, "a"⟩], winners := [] } _ rfl
    (Step.tick true true 50
      { id := 3, winnersReq := 1, endTime := 10, ended := true,
        endedAt := some 5, seed := "s", seedHash := "h", canceled := true,
        cancelReason := some "r", announced := false, announcedAt := none,
        participants := [⟨1, "a"⟩], winners := [] })

/-- C6: creation stores the seed together with
`seed_hash = SHA-256(seed)` before any entries exist (the fresh row
has no participants), and no later operation modifies either field,
so `Hash(seed) = seed_hash` holds on every reachable state, including
after the seed is revealed. -/
theorem C6_commitment_binding (hmac : String → String → String)
    (sha : String → String) (gid : Int) (w endUnix : Nat) (seed : String)
    (st : GState) (hr : Reachable hmac (initState sha gid w endUnix seed) st) :
    (initState sha gid w endUnix seed).seedHash = sha seed ∧
    (initState sha gid w endUnix seed).participants = [] ∧
    st.seed = seed ∧ st.seedHash = sha seed ∧ st.seedHash = sha st.seed := by
  obtain ⟨a, b, _, _, _⟩ := reachable_immutable_fields hmac hr
  have a' : st.seed = seed := a.trans rfl
  have b' : st.seedHash = sha seed := b.trans rfl
  exact ⟨rfl, rfl, a', b', by rw [a', b']⟩

/-- Concrete instantiation of `C6_commitment_binding` at the created
state itself. -/
theorem C6_commitment_binding_witness :
    (initState (fun s => s ++ "!") 1 2 10 "sd").seedHash =
      (fun s : String => s ++ "!") "sd" :=
  (C6_commitment_binding (fun s m => s ++ m) (fun s => s ++ "!") 1 2 10 "sd"
    (initState (fun s => s ++ "!") 1 2 10 "sd")
    Relation.ReflTransGen.refl).2.2.2.1

/-- C7: a proof view shows the raw seed exactly when
`ended=1 ∧ canceled=0` and shows the placeholder otherwise, while the
commitment hash is always shown; the `/ginfo` and `/proof` handlers
emit the proof block only in a private chat, and every proof message
any lifecycle operation sends goes to the DM channel. -/
theorem C7_proof_reveal_policy (st : GState)
    (hph : st.seed ≠ "Chưa công bố") :
    (proofSeedShown st = st.seed ↔ (st.ended = true ∧ st.canceled = false)) ∧
    proofCommitShown st = st.seedHash ∧
    (∀ c : Chan, ginfoIncludesProof c = true ↔ c = Chan.dm) ∧
    (∀ c : Chan, proofCmdReplies c = true ↔ c = Chan.dm) ∧
    (∀ (hmac : String → String → String) (pubOk txOk : Bool) (now : Nat)
      (m : Msg), m ∈ (tickG hmac pubOk txOk now st).2 → m.kind = .proof →
      m.chan = .dm) ∧
    (∀ (sendOk : Bool) (now : Nat) (m : Msg),
      m ∈ (manualAnnounce sendOk now st).2.1 → m.kind = .proof →
      m.chan = .dm) ∧
    (∀ (now : Nat) (reason : String) (m : Msg),
      m ∈ (cancelStep now reason st).2.1 → m.kind = .proof →
      m.chan = .dm) := by
  refine ⟨?_, rfl, ?_, ?_, ?_, ?_, ?_⟩
  · unfold proofSeedShown
    split_ifs with h
    · simp [h]
    · constructor
      · intro hEq
        exact absurd hEq.symm hph
      · intro hok
        exact absurd hok h
  · intro c
    cases c <;> simp [ginfoIncludesProof]
  · intro c
    cases c <;> simp [proofCmdReplies]
  · intro hmac pubOk txOk now m hm hk
    unfold tickG drawnState at hm
    split_ifs at hm <;> simp at hm <;>
      rcases hm with rfl | rfl <;> simp_all
  · intro sendOk now m hm hk
    unfold manualAnnounce at hm
    split_ifs at hm <;> simp at hm
    rcases hm with rfl | rfl <;> simp_all
  · intro now reason m hm hk
    unfold cancelStep at hm
    split_ifs at hm <;> simp at hm
    rcases hm with rfl | rfl <;> simp_all

/-- Concrete instantiation of `C7_proof_reveal_policy`: an open
giveaway's proof view hides the seed (placeholder shown, commit
visible). -/
theorem C7_proof_reveal_policy_witness :
    proofCommitShown
      { id := 1, winnersReq := 1, endTime := 10, ended := false,
        endedAt := none, seed := "s", seedHash := "h", canceled := false,
        cancelReason := none, announced := false, announcedAt := none,
        participants := [], winners := [] } = "h" :=
  (C7_proof_reveal_policy
    { id := 1, winnersReq := 1, endTime := 10, ended := false,
      endedAt := none, seed := "s", seedHash := "h", canceled := false,
      cancelReason := none, announced := false, announcedAt := none,
      participants := [], winners := [] } (by decide)).2.1

/-- C8 counterexample: the claim says a giveaway that closes with zero
participants "publishes a 'no entrants' notice exactly once, after
which announced=1"; but if the single notice send fails, the notice is
published zero times and `announced` stays `0` forever — the next tick
(healthy gateway) publishes nothing, because the giveaway is already
`ended=1` with no winners rows and the scheduler only logs the
missing-winners condition. -/
theorem C8_empty_notice_counterexample :
    (tickG (fun s m => s ++ m) false true 20
      { id := 2, winnersReq := 3, endTime := 20, ended := false,
        endedAt := none, seed := "t", seedHash := "u", canceled := false,
        cancelReason := none, announced := false, announcedAt := none,
        participants := [], winners := [] }).2 = [] ∧
    (tickG (fun s m => s ++ m) false true 20
      { id := 2, winnersReq := 3, endTime := 20, ended := false,
        endedAt := none, seed := "t", seedHash := "u", canceled := false,
        cancelReason := none, announced := false, announcedAt := none,
        participants := [], winners := [] }).1.ended = true ∧
    (tickG (fun s m => s ++ m) true true 21
      ((tickG (fun s m => s ++ m) false true 20
        { id := 2, winnersReq := 3, endTime := 20, ended := false,
          endedAt := none, seed := "t", seedHash := "u", canceled := false,
          cancelReason := none, announced := false, announcedAt := none,
          participants := [], winners := [] }).1)).2 = [] ∧
    (tickG (fun s m => s ++ m) true true 21
      ((tickG (fun s m => s ++ m) false true 20
        { id := 2, winnersReq := 3, endTime := 20, ended := false,
          endedAt := none, seed := "t", seedHash := "u", canceled := false,
          cancelReason := none, announced := false, announcedAt := none,
          participants := [], winners := [] }).1)).1.announced = false := by
  decide

/-- C8 (amended): when a due giveaway has zero participants, the
scheduler marks it `ended=1` with no winners rows; if the single
empty-notice publish attempt succeeds, the notice is published exactly
once, `announced=1`, every later tick is a no-op, and no winners rows
are ever created on any reachable later state; if that attempt fails,
the giveaway is left `ended=1, announced=0` with nothing published
(and, per the counterexample, the notice is never retried). -/
theorem C8_zero_participants (hmac : String → String → String)
    (pubOk txOk : Bool) (now : Nat) (st : GState)
    (hc : st.canceled = false) (ht : st.endTime ≤ now)
    (ha : st.announced = false) (he : st.ended = false)
    (hp : st.participants = []) (hw : st.winners = []) :
    (pubOk = true →
      tickG hmac pubOk txOk now st =
        ({ st with ended := true, endedAt := some now,
                   announced := true, announcedAt := some now },
         [⟨.group, .emptyNotice⟩, ⟨.dm, .proof⟩]) ∧
      ∀ st', Reachable hmac
          { st with ended := true, endedAt := some now,
                    announced := true, announcedAt := some now } st' →
        st'.winners = []) ∧
    (pubOk = false →
      tickG hmac pubOk txOk now st =
        ({ st with ended := true, endedAt := some now }, [])) ∧
    (∀ (pubOk' txOk' : Bool) (now' : Nat),
      tickG hmac pubOk' txOk' now'
        { st with ended := true, endedAt := some now,
                  announced := true, announcedAt := some now } =
        ({ st with ended := true, endedAt := some now,
                   announced := true, announcedAt := some now }, [])) := by
  have hsucc := tickG_empty_draw hmac pubOk txOk now st hc ht ha he hp
  refine ⟨fun hpub => ⟨?_, ?_⟩, fun hpub => ?_, fun pubOk' txOk' now' => ?_⟩
  · subst hpub
    simpa using hsucc
  · intro st' hr
    exact (reachable_no_winners hmac hr rfl (by simp [hw])).2
  · subst hpub
    simpa using hsucc
  · exact tickG_announced hmac pubOk' txOk' now' _ rfl

/-- Concrete instantiation of `C8_zero_participants`: the successful
empty-notice tick. -/
theorem C8_zero_participants_witness :
    tickG (fun s m => s ++ m) true true 20
      { id := 2, winnersReq := 3, endTime := 20, ended := false,
        endedAt := none, seed := "t", seedHash := "u", canceled := false,
        cancelReason := none, announced := false, announcedAt := none,
        participants := [], winners := [] } =
      ({ id := 2, winnersReq := 3, endTime := 20, ended := true,
         endedAt := some 20, seed := "t", seedHash := "u", canceled := false,
         cancelReason := none, announced := true, announcedAt := some 20,
         participants := [], winners := [] },
       [⟨.group, .emptyNotice⟩, ⟨.dm, .proof⟩]) :=
  ((C8_zero_participants (fun s m => s ++ m) true true 20
    { id := 2, winnersReq := 3, endTime := 20, ended := false,
      endedAt := none, seed := "t", seedHash := "u", canceled := false,
      cancelReason := none, announced := false, announcedAt := none,
      participants := [], winners := [] }
    rfl (by decide) rfl rfl rfl rfl).1 rfl).1

/-- C9: a join is accepted only when the giveaway is not canceled, not
ended and the current time is before the close time; every rejected
join leaves the state unchanged; and a duplicate participant id is
left unrecorded — on an otherwise-valid attempt it is answered with
the already-joined signal. -/
theorem C9_join_guards (st : GState) (isMember : Bool) (now : Nat)
    (uid : Int) (name : String) :
    ((joinStep isMember now uid name st).2 = .joined →
      st.canceled = false ∧ st.ended = false ∧ now < st.endTime ∧
      (joinStep isMember now uid name st).1.participants =
        st.participants ++ [⟨uid, name⟩]) ∧
    ((joinStep isMember now uid name st).2 ≠ .joined →
      (joinStep isMember now uid name st).1 = st) ∧
    (uid ∈ st.participants.map Participant.user_id →
      (joinStep isMember now uid name st).1 = st ∧
      (st.canceled = false → st.ended = false → now < st.endTime →
        isMember = true →
        (joinStep isMember now uid name st).2 = .alreadyJoined)) := by
  unfold joinStep
  split_ifs with h1 h2 h3 h4 <;> simp_all
  intro x hx hxe he hlt
  rcases h2 with h2 | h2
  · exact absurd h2 (by simp [he])
  · omega

/-- Concrete instantiation of `C9_join_guards`: the duplicate join is
rejected with the already-joined signal and the rows are unchanged. -/
theorem C9_join_guards_witness :
    (joinStep true 5 1 "x"
      { id := 1, winnersReq := 1, endTime := 10, ended := false,
        endedAt := none, seed := "s", seedHash := "h", canceled := false,
        cancelReason := none, announced := false, announcedAt := none,
        participants := [⟨1, "a"⟩], winners := [] }).1 =
      { id := 1, winnersReq := 1, endTime := 10, ended := false,
        endedAt := none, seed := "s", seedHash := "h", canceled := false,
        cancelReason := none, announced := false, announcedAt := none,
        participants := [⟨1, "a"⟩], winners := [] } ∧
    (joinStep true 5 1 "x"
      { id := 1, winnersReq := 1, endTime := 10, ended := false,
        endedAt := none, seed := "s", seedHash := "h", canceled := false,
        cancelReason := none, announced := false, announcedAt := none,
        participants := [⟨1, "a"⟩], winners := [] }).2 = .alreadyJoined :=
  ⟨((C9_join_guards
      { id := 1, winnersReq := 1, endTime := 10, ended := false,
        endedAt := none, seed := "s", seedHash := "h", canceled := false,
        cancelReason := none, announced := false, announcedAt := none,
        participants := [⟨1, "a"⟩], winners := [] } true 5 1 "x").2.2
      (by decide)).1,
   ((C9_join_guards
      { id := 1, winnersReq := 1, endTime := 10, ended := false,
        endedAt := none, seed := "s", seedHash := "h", canceled := false,
        cancelReason := none, announced := false, announcedAt := none,
        participants := [⟨1, "a"⟩], winners := [] } true 5 1 "x").2.2
      (by decide)).2 rfl rfl (by decide) rfl⟩

/-- C10: `createGiveawayAndPost` sends the public post first and
inserts the giveaway row only after the send succeeded: a failed send
leaves the store unchanged (`none`) and replies with the explicit
failure message, and any inserted row implies the send succeeded; a
success reply requires the whole sequence to have succeeded. -/
theorem C10_create_atomic (sha : String → String) (sendOk editOk : Bool)
    (gid : Int) (w endUnix : Nat) (seed : String) :
    (sendOk = false →
      createGiveawayAndPost sha sendOk editOk gid w endUnix seed =
        (none, [], .failure)) ∧
    (∀ st : GState,
      (createGiveawayAndPost sha sendOk editOk gid w endUnix seed).1 =
        some st →
      sendOk = true ∧ st = initState sha gid w endUnix seed) ∧
    ((createGiveawayAndPost sha sendOk editOk gid w endUnix seed).2.2 =
        CreateReply.success → sendOk = true ∧ editOk = true) := by
  unfold createGiveawayAndPost
  split_ifs <;> simp_all

/-- Concrete instantiation of `C10_create_atomic`: a failed group send
writes nothing and replies with the failure message. -/
theorem C10_create_atomic_witness :
    createGiveawayAndPost (fun s => s ++ "!") false true 1 2 10 "sd" =
      (none, [], .failure) :=
  (C10_create_atomic (fun s => s ++ "!") false true 1 2 10 "sd").1 rfl

end GiveawayBot
